import Mathlib

/- Verification development for the football-data synchronization handler
   in src/football_data_api_function.js.

   The handler is embedded shallowly: the document store, the operation
   trace, the request counter and the log sinks become explicit state; the
   upstream HTTP client and the store's acceptance of a write become an
   environment of pure functions; every fallible step returns an optional
   error that the per-task catch turns into a log entry.  JavaScript string
   primitives (split, startsWith, endsWith, includes) are re-implemented
   over lists of characters so that the kernel can evaluate them. -/

namespace FootballSync

/-! ### JavaScript string primitives over character lists -/

/-- JS String.prototype.split with a one-character separator:
splitting the empty string yields one empty field, and every occurrence
of the separator starts a new field. -/
def splitChar (c : Char) : List Char → List (List Char)
  | [] => [[]]
  | x :: xs =>
    let r := splitChar c xs
    if x == c then [] :: r
    else
      match r with
      | [] => [[x]]
      | h :: t => (x :: h) :: t

/-- Does the second list occur as an initial run of the first? -/
def strTakeEq (s p : List Char) : Bool := s.take p.length == p

/-- Does the second list occur anywhere inside the first (JS includes)? -/
def strHasSub : List Char → List Char → Bool
  | [], pat => strTakeEq [] pat
  | s@(_ :: t), pat => strTakeEq s pat || strHasSub t pat

/-- Does the second list occur as a final run of the first (JS endsWith)? -/
def strTailEq (s p : List Char) : Bool :=
  decide (p.length ≤ s.length) && (s.drop (s.length - p.length) == p)

def jsStartsWith (s p : String) : Bool := strTakeEq s.data p.data

def jsEndsWith (s p : String) : Bool := strTailEq s.data p.data

def jsIncludes (s p : String) : Bool := strHasSub s.data p.data

/-- endpoint.split(sep)[n] for a one-character sep.  The source only
indexes segment 2 of endpoints of the shape /competitions/..., where the
segment exists; an out-of-range index (undefined in JS) is modelled as the
empty string. -/
def jsSplitAt (sep : Char) (s : String) (n : Nat) : String :=
  ⟨(splitChar sep s.data).getD n []⟩

/-! ### Upstream response shapes (the fields the handler reads) -/

/-- An upstream object of which only .name is read
(data.area, standing.team, match.homeTeam, match.awayTeam). -/
structure NameObj where
  name : String
deriving DecidableEq

/-- One row of standings[0].table. -/
structure TableRow where
  position : Int
  team : NameObj
  points : Int
  playedGames : Int
deriving DecidableEq

/-- One element of data.standings; only .table is read, via optional
chaining. -/
structure StandingGroup where
  table : Option (List TableRow)
deriving DecidableEq

/-- match.score.fullTime; .home and .away may be null (?? null). -/
structure FullTime where
  home : Option Int
  away : Option Int
deriving DecidableEq

structure Score where
  fullTime : FullTime
deriving DecidableEq

/-- One element of data.matches. -/
structure MatchEntry where
  id : Int
  status : String
  homeTeam : NameObj
  awayTeam : NameObj
  score : Score
  utcDate : String
deriving DecidableEq

/-- The response body: the union of the fields the three branches read.
data.area is Option because reading .name of an absent area throws;
data.standings and data.matches are Option because the source guards them
with optional chaining. -/
structure Response where
  name : String
  area : Option NameObj
  standings : Option (List StandingGroup)
  «matches» : Option (List MatchEntry)
deriving DecidableEq

/-! ### Document store, operation trace, run state -/

/-- The three collections (COMPETITIONS_COLLECTION_ID,
STANDINGS_COLLECTION_ID, MATCHES_COLLECTION_ID). -/
inductive Coll
  | competitions
  | standings
  | matches
deriving DecidableEq

/-- sdk.Permission.read(sdk.Role.any()). -/
inductive Perm
  | readAny
deriving DecidableEq

/-- Document bodies, one shape per collection, with the exact fields the
source writes (lines 79-85, 106-110, 136-146). -/
inductive Body
  | comp (code : String) (name : String) (area_name : String)
  | standing (competition_code : String) (position : Int) (team_name : String)
      (points : Int) (played_games : Int)
  | matchDoc (idField : String) (match_id : Int) (competition_code : String)
      (home_team_name : String) (away_team_name : String)
      (score_home : Option Int) (score_away : Option Int)
      (status : String) (utc_date : String)
deriving DecidableEq

/-- A stored document: collection, store identifier, body, and the
permission list passed to createDocument (none when the argument was
omitted, as for standings). -/
structure Doc where
  collection : Coll
  docId : String
  body : Body
  perms : Option (List Perm)
deriving DecidableEq

/-- A value in a Query.equal filter (string code or numeric match id). -/
inductive QVal
  | qs (v : String)
  | qi (v : Int)
deriving DecidableEq

/-- The store operations the source performs: it only ever lists and
creates documents — there is no update or delete call site. -/
inductive Op
  | listDocumentsOp (collection : Coll) (field : String) (v : QVal)
  | createDocumentOp (d : Doc)
deriving DecidableEq

/-- The persistent document store; nextId drives sdk.ID.unique(), which
never repeats across invocations. -/
structure Store where
  docs : List Doc
  nextId : Nat
deriving DecidableEq

def emptyStore : Store := ⟨[], 0⟩

/-- A fetch target (lines 28-38). -/
structure Task where
  endpoint : String
  priority : Nat
deriving DecidableEq

/-- The environment: the upstream API (axios.get as a pure function from
endpoint to response or error), the store's verdict on each attempted
createDocument, the request budget (the source fixes maxRequests = 10 at
line 25), and an optional outer-tier initialization failure (client
construction, lines 15-19). -/
structure Env where
  fetch : String → Except String Response
  writeOk : Doc → Bool
  maxRequests : Nat
  initError : Option String

/-- Invocation state: the store, the two counters, the const logs array
(line 6, never appended to), the context.log sink, and the trace of store
operations. fetchCount counts every axios.get call attempted, whether or
not it succeeds. -/
structure RunState where
  store : Store
  requestsMade : Nat
  fetchCount : Nat
  logs : List String
  ctxLogs : List String
  ops : List Op
deriving DecidableEq

def initState (store : Store) : RunState :=
  { store := store, requestsMade := 0, fetchCount := 0, logs := [],
    ctxLogs := ["DEBUG: Function invoked"], ops := [] }

def ctxLog (st : RunState) (m : String) : RunState :=
  { st with ctxLogs := st.ctxLogs ++ [m] }

/-- sdk.ID.unique(): a fresh identifier from the generator. -/
def freshId (st : RunState) : String × RunState :=
  ("uid" ++ toString st.store.nextId,
   { st with store := { st.store with nextId := st.store.nextId + 1 } })

/-- databases.createDocument: the attempt is always traced; the document
is appended to the store when the store accepts the write. -/
def createDocument (env : Env) (st : RunState) (d : Doc) : RunState × Bool :=
  let st1 := { st with ops := st.ops ++ [Op.createDocumentOp d] }
  if env.writeOk d then
    ({ st1 with store := { st1.store with docs := st1.store.docs ++ [d] } }, true)
  else (st1, false)

/-- Does a document answer Query.equal of field code with value c over the
competitions collection? -/
def compCodeHit (c : String) (d : Doc) : Bool :=
  d.collection == Coll.competitions &&
    (match d.body with
     | Body.comp code _ _ => code == c
     | _ => false)

/-- Does a document answer Query.equal of field match_id with value i over
the matches collection? -/
def matchIdHit (i : Int) (d : Doc) : Bool :=
  d.collection == Coll.matches &&
    (match d.body with
     | Body.matchDoc _ mid _ _ _ _ _ _ _ => mid == i
     | _ => false)

/-- databases.listDocuments on the competitions collection with
Query.equal of code (lines 96-100): traces the query and returns the
number of documents found. -/
def listCompetitions (st : RunState) (c : String) : RunState × Nat :=
  ({ st with ops := st.ops ++ [Op.listDocumentsOp Coll.competitions "code" (QVal.qs c)] },
   (st.store.docs.filter (compCodeHit c)).length)

/-- databases.listDocuments on the matches collection with Query.equal of
match_id (lines 125-129). -/
def listMatchesById (st : RunState) (i : Int) : RunState × Nat :=
  ({ st with ops := st.ops ++ [Op.listDocumentsOp Coll.matches "match_id" (QVal.qi i)] },
   (st.store.docs.filter (matchIdHit i)).length)

/-! ### The three branch bodies -/

/-- Lines 74-90: one unconditional createDocument per standing row, no
permission argument; a rejected write throws out of the row loop, leaving
the earlier rows' documents in place. -/
def insertStandings (env : Env) (compCode : String) :
    RunState → List TableRow → RunState × Option String
  | st, [] => (st, none)
  | st, row :: rest =>
    let p := freshId st
    let d : Doc :=
      { collection := Coll.standings, docId := p.1,
        body := Body.standing compCode row.position row.team.name row.points row.playedGames,
        perms := none }
    match createDocument env p.2 d with
    | (st2, true) =>
        insertStandings env compCode
          (ctxLog st2 ("DEBUG: Saved standing for " ++ compCode)) rest
    | (st2, false) => (st2, some "store write failed")

/-- Lines 91-116: existence check by code, then insert with public-read
permission; reading data.area.name throws when area is absent, after
ID.unique() has already been consumed (JS evaluates the arguments of
createDocument left to right). -/
def processCompetition (env : Env) (st : RunState) (compCode : String)
    (data : Response) : RunState × Option String :=
  let q := listCompetitions st compCode
  if q.2 = 0 then
    let p := freshId q.1
    match data.area with
    | none => (p.2, some "Cannot read properties of undefined")
    | some a =>
      let d : Doc :=
        { collection := Coll.competitions, docId := p.1,
          body := Body.comp compCode data.name a.name,
          perms := some [Perm.readAny] }
      match createDocument env p.2 d with
      | (st3, true) => (ctxLog st3 ("DEBUG: Saved competition " ++ compCode), none)
      | (st3, false) => (st3, some "store write failed")
  else (ctxLog q.1 ("DEBUG: Skipped existing competition " ++ compCode), none)

/-- Lines 123-158: for each entry with status exactly FINISHED, existence
check by match_id then insert with public-read permission; the generated
document id is also stored inside the body. Entries with any other status
are passed over with no store operation at all. -/
def processMatchList (env : Env) (compCode : String) :
    RunState → List MatchEntry → RunState × Option String
  | st, [] => (st, none)
  | st, m :: rest =>
    if m.status = "FINISHED" then
      let q := listMatchesById st m.id
      if q.2 = 0 then
        let p := freshId q.1
        let d : Doc :=
          { collection := Coll.matches, docId := p.1,
            body := Body.matchDoc p.1 m.id compCode m.homeTeam.name m.awayTeam.name
              m.score.fullTime.home m.score.fullTime.away m.status m.utcDate,
            perms := some [Perm.readAny] }
        match createDocument env p.2 d with
        | (st3, true) =>
            processMatchList env compCode (ctxLog st3 "DEBUG: Saved match") rest
        | (st3, false) => (st3, some "store write failed")
      else processMatchList env compCode (ctxLog q.1 "DEBUG: Skipped existing match") rest
    else processMatchList env compCode st rest

/-- data.standings?.[0]?.table?.slice(0, 10) || [] (line 70). -/
def standingsRows (data : Response) : List TableRow :=
  (((data.standings.bind List.head?).bind StandingGroup.table).map
    (fun t => t.take 10)).getD []

/-- data.matches?.slice(0, 10) || [] (line 119). -/
def matchRows (data : Response) : List MatchEntry :=
  (data.matches.map (fun l => l.take 10)).getD []

/-! ### Classification and the per-task body -/

/-- The record kind a fetched response is routed to (spec §4.3). -/
inductive Kind
  | standingKind
  | competitionKind
  | matchKind
  | otherKind
deriving DecidableEq

/-- The if-chain of lines 65-117, in source order: the standings check
first, then the bare-competition check, then the matches check. -/
def classify (endpoint : String) : Kind :=
  if jsStartsWith endpoint "/competitions/" && jsEndsWith endpoint "/standings" then
    Kind.standingKind
  else if jsStartsWith endpoint "/competitions/" && !(jsIncludes endpoint "/matches") then
    Kind.competitionKind
  else if jsIncludes endpoint "/matches" then
    Kind.matchKind
  else
    Kind.otherKind

/-- endpoint.split(slash)[2] — the competition code. -/
def compCodeOf (endpoint : String) : String := jsSplitAt '/' endpoint 2

/-- Lines 65-159: route the fetched body through the if-chain. -/
def processFetched (env : Env) (st : RunState) (endpoint : String)
    (data : Response) : RunState × Option String :=
  match classify endpoint with
  | Kind.standingKind => insertStandings env (compCodeOf endpoint) st (standingsRows data)
  | Kind.competitionKind => processCompetition env st (compCodeOf endpoint) data
  | Kind.matchKind => processMatchList env (compCodeOf endpoint) st (matchRows data)
  | Kind.otherKind => (st, none)

/-- Lines 54-162: the body of one loop iteration, inside its try/catch.
The fetch is attempted (fetchCount counts it); on success requestsMade is
incremented before any processing, so downstream failures keep the
increment; every error becomes one context.log entry and the state so far
is kept. -/
def processTask (env : Env) (st : RunState) (t : Task) : RunState :=
  let st0 := ctxLog st ("DEBUG: Processing task " ++ t.endpoint)
  let st1 := { st0 with fetchCount := st0.fetchCount + 1 }
  match env.fetch t.endpoint with
  | Except.error msg =>
      ctxLog st1 ("ERROR: Failed task " ++ t.endpoint ++ ": " ++ msg)
  | Except.ok data =>
    let st2 := { st1 with requestsMade := st1.requestsMade + 1 }
    match processFetched env st2 t.endpoint data with
    | (st3, none) => st3
    | (st3, some msg) =>
        ctxLog st3 ("ERROR: Failed task " ++ t.endpoint ++ ": " ++ msg)

/-- Lines 47-163: the for-of loop with the budget check at the top of each
iteration; reaching the budget breaks, skipping all remaining tasks. -/
def runTasks (env : Env) : RunState → List Task → RunState
  | st, [] => st
  | st, t :: ts =>
    if st.requestsMade ≥ env.maxRequests then ctxLog st "INFO: Max requests reached"
    else runTasks env (processTask env st t) ts

/-- Lines 28-38: the static task queue. -/
def tasks : List Task :=
  [⟨"/competitions/PL", 1⟩,
   ⟨"/competitions/PL/standings", 2⟩,
   ⟨"/competitions/PL/matches?status=FINISHED", 3⟩,
   ⟨"/competitions/CL", 1⟩,
   ⟨"/competitions/CL/standings", 2⟩,
   ⟨"/competitions/CL/matches?status=FINISHED", 3⟩,
   ⟨"/competitions/EC", 1⟩,
   ⟨"/competitions/EC/standings", 2⟩,
   ⟨"/competitions/EC/matches?status=FINISHED", 3⟩]

/-- The JSON result returned to the invoker (lines 165-172). -/
structure RunResult where
  status : String
  message : Option String
  logs : List String
  requests_made : Option Nat
deriving DecidableEq

/-- The whole invocation: an outer-tier initialization failure returns the
error shape without touching the store; otherwise the loop runs over the
fixed task queue and the success shape is returned, whatever happened
inside the tasks. -/
def handler (env : Env) (store : Store) : RunResult × RunState :=
  let st0 := initState store
  match env.initError with
  | some msg =>
      ({ status := "error", message := some msg, logs := st0.logs,
         requests_made := none }, st0)
  | none =>
    let stF := runTasks env st0 tasks
    ({ status := "success", message := none, logs := stF.logs,
       requests_made := some stF.requestsMade }, stF)

/-! ### Derived views of the store -/

def compDocs (s : Store) : List Doc :=
  s.docs.filter (fun d => d.collection == Coll.competitions)

def matchDocs (s : Store) : List Doc :=
  s.docs.filter (fun d => d.collection == Coll.matches)

def standingDocs (s : Store) : List Doc :=
  s.docs.filter (fun d => d.collection == Coll.standings)

/-- The permission discipline each createDocument call site follows:
public read for competitions and matches, no permission argument for
standings. -/
def docPermOk (d : Doc) : Prop :=
  match d.collection with
  | Coll.competitions => d.perms = some [Perm.readAny]
  | Coll.matches => d.perms = some [Perm.readAny]
  | Coll.standings => d.perms = none

/-- Every create operation in a trace fragment obeys the permission
discipline. -/
def opsOk (l : List Op) : Prop :=
  ∀ d, Op.createDocumentOp d ∈ l → docPermOk d

/-- How many of the loop's iterations obtain a response (and therefore
increment requestsMade), starting from a given counter value: the
specification-side count the counter is compared against.  It mirrors the
loop's control flow, which depends only on the counter and the fetch
outcomes. -/
def successfulCalls (env : Env) : Nat → List Task → Nat
  | _, [] => 0
  | r, t :: ts =>
    if r ≥ env.maxRequests then 0
    else
      match env.fetch t.endpoint with
      | Except.error _ => successfulCalls env r ts
      | Except.ok _ => successfulCalls env (r + 1) ts + 1

/-- How many upstream calls the loop attempts (successful or not),
starting from a given counter value. -/
def attemptedCalls (env : Env) : Nat → List Task → Nat
  | _, [] => 0
  | r, t :: ts =>
    if r ≥ env.maxRequests then 0
    else
      match env.fetch t.endpoint with
      | Except.error _ => attemptedCalls env r ts + 1
      | Except.ok _ => attemptedCalls env (r + 1) ts + 1

/-- The state right after a successful fetch for endpoint e: the
processing log entry has been written, the attempt has been counted and
requestsMade has been incremented (lines 55-59), flattened into one
update. -/
def taskMid (st : RunState) (e : String) : RunState :=
  { st with
      fetchCount := st.fetchCount + 1,
      requestsMade := st.requestsMade + 1,
      ctxLogs := st.ctxLogs ++ ["DEBUG: Processing task " ++ e] }

/-! ### Concrete scenario data -/

/-- An environment in which every upstream fetch fails. -/
def failFetchEnv : Env :=
  { fetch := fun _ => Except.error "getaddrinfo ENOTFOUND",
    writeOk := fun _ => true, maxRequests := 10, initError := none }

/-- Eleven fetch targets: more tasks than the default budget of 10. -/
def elevenTasks : List Task := List.replicate 11 ⟨"/competitions/PL", 1⟩

def plTask : Task := ⟨"/competitions/PL", 1⟩

def plStandingsTask : Task := ⟨"/competitions/PL/standings", 2⟩

def plMatchesTask : Task := ⟨"/competitions/PL/matches?status=FINISHED", 3⟩

/-- The §8 Competition response. -/
def plCompResponse : Response :=
  { name := "Premier League", area := some ⟨"England"⟩,
    standings := none, «matches» := none }

/-- An environment that serves the §8 Competition response for
/competitions/PL and fails every other fetch. -/
def compOnlyEnv : Env :=
  { fetch := fun e =>
      if e = "/competitions/PL" then Except.ok plCompResponse
      else Except.error "Request failed with status code 404",
    writeOk := fun _ => true, maxRequests := 10, initError := none }

def mkRow (i : Int) : TableRow :=
  { position := i, team := ⟨"Team" ++ toString i⟩, points := 30 - i, playedGames := 10 }

/-- A Standings response whose single standings group has 12 table rows. -/
def standingsResponse12 : Response :=
  { name := "Premier League", area := none,
    standings := some [⟨some ((List.range 12).map (fun i => mkRow (Int.ofNat i + 1)))⟩],
    «matches» := none }

/-- A response from which the standings[0].table path is absent. -/
def standingsAbsentResponse : Response :=
  { name := "Premier League", area := none, standings := none, «matches» := none }

/-- An environment that serves the 12-row Standings response for
/competitions/PL/standings and fails every other fetch. -/
def standingsEnv : Env :=
  { fetch := fun e =>
      if e = "/competitions/PL/standings" then Except.ok standingsResponse12
      else Except.error "Request failed with status code 404",
    writeOk := fun _ => true, maxRequests := 10, initError := none }

def mkMatch (i : Int) (s : String) : MatchEntry :=
  { id := i, status := s, homeTeam := ⟨"Home" ++ toString i⟩,
    awayTeam := ⟨"Away" ++ toString i⟩,
    score := ⟨⟨some 1, some 0⟩⟩, utcDate := "2025-05-0" ++ toString i ++ "T15:00:00Z" }

/-- The §8 Matches payload: 11 entries whose statuses begin FINISHED,
SCHEDULED, FINISHED, with only those 2 FINISHED overall. -/
def matchList11 : List MatchEntry :=
  [mkMatch 1 "FINISHED", mkMatch 2 "SCHEDULED", mkMatch 3 "FINISHED",
   mkMatch 4 "SCHEDULED", mkMatch 5 "TIMED", mkMatch 6 "SCHEDULED",
   mkMatch 7 "SCHEDULED", mkMatch 8 "SCHEDULED", mkMatch 9 "SCHEDULED",
   mkMatch 10 "SCHEDULED", mkMatch 11 "SCHEDULED"]

/-- The same payload with the 11th entry FINISHED as well: 3 FINISHED
overall, but the 11th lies beyond the first-10 slice. -/
def matchList11plus : List MatchEntry :=
  [mkMatch 1 "FINISHED", mkMatch 2 "SCHEDULED", mkMatch 3 "FINISHED",
   mkMatch 4 "SCHEDULED", mkMatch 5 "TIMED", mkMatch 6 "SCHEDULED",
   mkMatch 7 "SCHEDULED", mkMatch 8 "SCHEDULED", mkMatch 9 "SCHEDULED",
   mkMatch 10 "SCHEDULED", mkMatch 11 "FINISHED"]

def matchesResponse (l : List MatchEntry) : Response :=
  { name := "Premier League", area := none, standings := none, «matches» := some l }

/-- An environment that serves a given Matches payload for the PL matches
endpoint and fails every other fetch. -/
def matchesEnv (l : List MatchEntry) : Env :=
  { fetch := fun e =>
      if e = "/competitions/PL/matches?status=FINISHED" then
        Except.ok (matchesResponse l)
      else Except.error "Request failed with status code 404",
    writeOk := fun _ => true, maxRequests := 10, initError := none }

/-- The standing documents the row loop creates from a given list of
table rows, in table order, with ids continuing from a given generator
value: the expected shape of the standings branch's output. -/
def standingDocsFrom (c : String) : Nat → List TableRow → List Doc
  | _, [] => []
  | n, row :: rest =>
    { collection := Coll.standings, docId := "uid" ++ toString n,
      body := Body.standing c row.position row.team.name row.points row.playedGames,
      perms := none } :: standingDocsFrom c (n + 1) rest

/-! ### State-shape lemmas for the primitives -/

theorem ctxLog_store (st : RunState) (m : String) : (ctxLog st m).store = st.store := rfl

theorem ctxLog_requestsMade (st : RunState) (m : String) :
    (ctxLog st m).requestsMade = st.requestsMade := rfl

theorem ctxLog_fetchCount (st : RunState) (m : String) :
    (ctxLog st m).fetchCount = st.fetchCount := rfl

theorem ctxLog_logs (st : RunState) (m : String) : (ctxLog st m).logs = st.logs := rfl

theorem ctxLog_ops (st : RunState) (m : String) : (ctxLog st m).ops = st.ops := rfl

theorem freshId_requestsMade (st : RunState) :
    ((freshId st).2).requestsMade = st.requestsMade := rfl

theorem freshId_fetchCount (st : RunState) :
    ((freshId st).2).fetchCount = st.fetchCount := rfl

theorem freshId_logs (st : RunState) : ((freshId st).2).logs = st.logs := rfl

theorem freshId_ops (st : RunState) : ((freshId st).2).ops = st.ops := rfl

theorem freshId_docs (st : RunState) :
    ((freshId st).2).store.docs = st.store.docs := rfl

theorem listCompetitions_fst_store (st : RunState) (c : String) :
    ((listCompetitions st c).1).store = st.store := rfl

theorem listCompetitions_fst_requestsMade (st : RunState) (c : String) :
    ((listCompetitions st c).1).requestsMade = st.requestsMade := rfl

theorem listCompetitions_fst_fetchCount (st : RunState) (c : String) :
    ((listCompetitions st c).1).fetchCount = st.fetchCount := rfl

theorem listCompetitions_fst_logs (st : RunState) (c : String) :
    ((listCompetitions st c).1).logs = st.logs := rfl

theorem listCompetitions_fst_ops (st : RunState) (c : String) :
    ((listCompetitions st c).1).ops =
      st.ops ++ [Op.listDocumentsOp Coll.competitions "code" (QVal.qs c)] := rfl

theorem listCompetitions_snd (st : RunState) (c : String) :
    (listCompetitions st c).2 = (st.store.docs.filter (compCodeHit c)).length := rfl

theorem listMatchesById_fst_store (st : RunState) (i : Int) :
    ((listMatchesById st i).1).store = st.store := rfl

theorem listMatchesById_fst_requestsMade (st : RunState) (i : Int) :
    ((listMatchesById st i).1).requestsMade = st.requestsMade := rfl

theorem listMatchesById_fst_fetchCount (st : RunState) (i : Int) :
    ((listMatchesById st i).1).fetchCount = st.fetchCount := rfl

theorem listMatchesById_fst_logs (st : RunState) (i : Int) :
    ((listMatchesById st i).1).logs = st.logs := rfl

theorem listMatchesById_fst_ops (st : RunState) (i : Int) :
    ((listMatchesById st i).1).ops =
      st.ops ++ [Op.listDocumentsOp Coll.matches "match_id" (QVal.qi i)] := rfl

theorem listMatchesById_snd (st : RunState) (i : Int) :
    (listMatchesById st i).2 = (st.store.docs.filter (matchIdHit i)).length := rfl

theorem createDocument_requestsMade (env : Env) (st : RunState) (d : Doc) :
    ((createDocument env st d).1).requestsMade = st.requestsMade := by
  unfold createDocument; split <;> rfl

theorem createDocument_fetchCount (env : Env) (st : RunState) (d : Doc) :
    ((createDocument env st d).1).fetchCount = st.fetchCount := by
  unfold createDocument; split <;> rfl

theorem createDocument_logs (env : Env) (st : RunState) (d : Doc) :
    ((createDocument env st d).1).logs = st.logs := by
  unfold createDocument; split <;> rfl

theorem createDocument_ops (env : Env) (st : RunState) (d : Doc) :
    ((createDocument env st d).1).ops = st.ops ++ [Op.createDocumentOp d] := by
  unfold createDocument; split <;> rfl

theorem createDocument_docs (env : Env) (st : RunState) (d : Doc) :
    ((createDocument env st d).1).store.docs =
      st.store.docs ++ (if env.writeOk d then [d] else []) := by
  unfold createDocument; split <;> simp_all

theorem createDocument_snd (env : Env) (st : RunState) (d : Doc) :
    (createDocument env st d).2 = env.writeOk d := by
  unfold createDocument; split <;> simp_all

/-! ### State-shape lemmas for the branch bodies -/

theorem opsOk_nil : opsOk [] := by
  intro d h; cases h

theorem opsOk_append {l1 l2 : List Op} (h1 : opsOk l1) (h2 : opsOk l2) :
    opsOk (l1 ++ l2) := by
  intro d h
  rcases List.mem_append.mp h with h | h
  · exact h1 d h
  · exact h2 d h

theorem insertStandings_state (env : Env) (c : String) :
    ∀ (rows : List TableRow) (st : RunState),
      ((insertStandings env c st rows).1).requestsMade = st.requestsMade ∧
      ((insertStandings env c st rows).1).fetchCount = st.fetchCount ∧
      ((insertStandings env c st rows).1).logs = st.logs ∧
      (∃ l, ((insertStandings env c st rows).1).store.docs = st.store.docs ++ l ∧
        ∀ d ∈ l, d.collection = Coll.standings ∧ d.perms = none) ∧
      (∃ l, ((insertStandings env c st rows).1).ops = st.ops ++ l ∧
        ∀ d, Op.createDocumentOp d ∈ l → d.collection = Coll.standings ∧ d.perms = none) := by
  intro rows
  induction rows with
  | nil =>
    intro st
    refine ⟨rfl, rfl, rfl, ⟨[], by simp [insertStandings], by simp⟩,
      ⟨[], by simp [insertStandings], by simp⟩⟩
  | cons row rest ih =>
    intro st
    set d : Doc :=
      { collection := Coll.standings, docId := (freshId st).1,
        body := Body.standing c row.position row.team.name row.points row.playedGames,
        perms := none } with hd
    by_cases hw : env.writeOk d = true
    · have hred : insertStandings env c st (row :: rest) =
        insertStandings env c
          (ctxLog { (freshId st).2 with
              ops := (freshId st).2.ops ++ [Op.createDocumentOp d],
              store := { (freshId st).2.store with
                docs := (freshId st).2.store.docs ++ [d] } }
            ("DEBUG: Saved standing for " ++ c)) rest := by
        simp only [insertStandings, createDocument, hd]
        rw [if_pos hw]
      obtain ⟨h1, h2, h3, ⟨l4, hl4, hp4⟩, ⟨l5, hl5, hp5⟩⟩ := ih _
      rw [hred]
      refine ⟨h1, h2, h3, ?_, ?_⟩
      · refine ⟨[d] ++ l4, ?_, ?_⟩
        · rw [hl4]; simp [ctxLog, freshId]
        · intro x hx
          rcases List.mem_append.mp hx with hx | hx
          · simp at hx; subst hx; exact ⟨rfl, rfl⟩
          · exact hp4 x hx
      · refine ⟨[Op.createDocumentOp d] ++ l5, ?_, ?_⟩
        · rw [hl5]; simp [ctxLog, freshId]
        · intro x hx
          rcases List.mem_append.mp hx with hx | hx
          · simp at hx; subst hx; exact ⟨rfl, rfl⟩
          · exact hp5 x hx
    · have hred : insertStandings env c st (row :: rest) =
        ({ (freshId st).2 with
            ops := (freshId st).2.ops ++ [Op.createDocumentOp d] },
          some "store write failed") := by
        simp only [insertStandings, createDocument, hd]
        rw [if_neg hw]
      rw [hred]
      refine ⟨rfl, rfl, rfl, ⟨[], by simp [freshId], by simp⟩,
        ⟨[Op.createDocumentOp d], by simp [freshId], ?_⟩⟩
      intro x hx
      simp at hx; subst hx; exact ⟨rfl, rfl⟩

theorem createDocument_cases (env : Env) (st : RunState) (d : Doc) :
    (env.writeOk d = true ∧ createDocument env st d =
        ({ st with
            ops := st.ops ++ [Op.createDocumentOp d],
            store := { st.store with docs := st.store.docs ++ [d] } }, true)) ∨
    (env.writeOk d = false ∧ createDocument env st d =
        ({ st with ops := st.ops ++ [Op.createDocumentOp d] }, false)) := by
  by_cases hw : env.writeOk d = true
  · left
    exact ⟨hw, by simp [createDocument, hw]⟩
  · right
    refine ⟨by simpa using hw, by simp [createDocument, hw]⟩

theorem processCompetition_state (env : Env) (st : RunState) (c : String)
    (data : Response) :
    ((processCompetition env st c data).1).requestsMade = st.requestsMade ∧
    ((processCompetition env st c data).1).fetchCount = st.fetchCount ∧
    ((processCompetition env st c data).1).logs = st.logs ∧
    (∃ l, ((processCompetition env st c data).1).store.docs = st.store.docs ++ l ∧
      ∀ d ∈ l, d.collection = Coll.competitions ∧ d.perms = some [Perm.readAny]) ∧
    (∃ l, ((processCompetition env st c data).1).ops = st.ops ++ l ∧
      ∀ d, Op.createDocumentOp d ∈ l →
        d.collection = Coll.competitions ∧ d.perms = some [Perm.readAny]) := by
  simp only [processCompetition, listCompetitions_snd]
  by_cases hfound : (st.store.docs.filter (compCodeHit c)).length = 0
  · rw [if_pos hfound]
    cases harea : data.area with
    | none =>
      refine ⟨rfl, rfl, rfl, ⟨[], by simp [freshId, listCompetitions], by simp⟩,
        ⟨[Op.listDocumentsOp Coll.competitions "code" (QVal.qs c)],
          by simp [freshId, listCompetitions], by intro x hx; simp at hx⟩⟩
    | some a =>
      dsimp only
      rcases createDocument_cases env (freshId (listCompetitions st c).1).2
          { collection := Coll.competitions, docId := (freshId (listCompetitions st c).1).1, body := Body.comp c data.name a.name, perms := some [Perm.readAny] } with ⟨hw, hcd⟩ | ⟨hw, hcd⟩ <;>
        rw [hcd]
      · refine ⟨rfl, rfl, rfl, ?_, ?_⟩
        · refine ⟨[{ collection := Coll.competitions, docId := (freshId (listCompetitions st c).1).1, body := Body.comp c data.name a.name, perms := some [Perm.readAny] }], by simp [ctxLog, freshId, listCompetitions], ?_⟩
          intro x hx
          simp at hx
          subst hx
          exact ⟨rfl, rfl⟩
        · refine ⟨[Op.listDocumentsOp Coll.competitions "code" (QVal.qs c),
            Op.createDocumentOp { collection := Coll.competitions, docId := (freshId (listCompetitions st c).1).1, body := Body.comp c data.name a.name, perms := some [Perm.readAny] }],
            by simp [ctxLog, freshId, listCompetitions], ?_⟩
          intro x hx
          simp at hx
          subst hx
          exact ⟨rfl, rfl⟩
      · refine ⟨rfl, rfl, rfl, ⟨[], by simp [freshId, listCompetitions], by simp⟩,
          ⟨[Op.listDocumentsOp Coll.competitions "code" (QVal.qs c),
            Op.createDocumentOp { collection := Coll.competitions, docId := (freshId (listCompetitions st c).1).1, body := Body.comp c data.name a.name, perms := some [Perm.readAny] }],
            by simp [freshId, listCompetitions], ?_⟩⟩
        intro x hx
        simp at hx
        subst hx
        exact ⟨rfl, rfl⟩
  · rw [if_neg hfound]
    exact ⟨rfl, rfl, rfl,
      ⟨[], by simp [ctxLog, listCompetitions], by simp⟩,
      ⟨[Op.listDocumentsOp Coll.competitions "code" (QVal.qs c)],
        by simp [ctxLog, listCompetitions], by intro x hx; simp at hx⟩⟩

theorem processMatchList_state (env : Env) (c : String) :
    ∀ (ms : List MatchEntry) (st : RunState),
      ((processMatchList env c st ms).1).requestsMade = st.requestsMade ∧
      ((processMatchList env c st ms).1).fetchCount = st.fetchCount ∧
      ((processMatchList env c st ms).1).logs = st.logs ∧
      (∃ l, ((processMatchList env c st ms).1).store.docs = st.store.docs ++ l ∧
        ∀ d ∈ l, d.collection = Coll.matches ∧ d.perms = some [Perm.readAny]) ∧
      (∃ l, ((processMatchList env c st ms).1).ops = st.ops ++ l ∧
        ∀ d, Op.createDocumentOp d ∈ l →
          d.collection = Coll.matches ∧ d.perms = some [Perm.readAny]) := by
  intro ms
  induction ms with
  | nil =>
    intro st
    exact ⟨rfl, rfl, rfl, ⟨[], by simp [processMatchList], by simp⟩,
      ⟨[], by simp [processMatchList], by simp⟩⟩
  | cons m rest ih =>
    intro st
    simp only [processMatchList, listMatchesById_snd]
    by_cases hs : m.status = "FINISHED"
    · rw [if_pos hs]
      by_cases hfound : (st.store.docs.filter (matchIdHit m.id)).length = 0
      · rw [if_pos hfound]
        rcases createDocument_cases env (freshId (listMatchesById st m.id).1).2
            { collection := Coll.matches, docId := (freshId (listMatchesById st m.id).1).1, body := Body.matchDoc (freshId (listMatchesById st m.id).1).1 m.id c m.homeTeam.name m.awayTeam.name m.score.fullTime.home m.score.fullTime.away m.status m.utcDate, perms := some [Perm.readAny] } with ⟨hw, hcd⟩ | ⟨hw, hcd⟩ <;>
          rw [hcd]
        · obtain ⟨h1, h2, h3, ⟨l4, hl4, hp4⟩, ⟨l5, hl5, hp5⟩⟩ := ih
            (ctxLog { (freshId (listMatchesById st m.id).1).2 with
                ops := (freshId (listMatchesById st m.id).1).2.ops ++ [Op.createDocumentOp { collection := Coll.matches, docId := (freshId (listMatchesById st m.id).1).1, body := Body.matchDoc (freshId (listMatchesById st m.id).1).1 m.id c m.homeTeam.name m.awayTeam.name m.score.fullTime.home m.score.fullTime.away m.status m.utcDate, perms := some [Perm.readAny] }],
                store := { (freshId (listMatchesById st m.id).1).2.store with
                  docs := (freshId (listMatchesById st m.id).1).2.store.docs ++ [{ collection := Coll.matches, docId := (freshId (listMatchesById st m.id).1).1, body := Body.matchDoc (freshId (listMatchesById st m.id).1).1 m.id c m.homeTeam.name m.awayTeam.name m.score.fullTime.home m.score.fullTime.away m.status m.utcDate, perms := some [Perm.readAny] }] } }
              "DEBUG: Saved match")
          refine ⟨by simpa using h1, by simpa using h2, by simpa using h3, ?_, ?_⟩
          · refine ⟨[{ collection := Coll.matches, docId := (freshId (listMatchesById st m.id).1).1, body := Body.matchDoc (freshId (listMatchesById st m.id).1).1 m.id c m.homeTeam.name m.awayTeam.name m.score.fullTime.home m.score.fullTime.away m.status m.utcDate, perms := some [Perm.readAny] }] ++ l4, ?_, ?_⟩
            · rw [hl4]
              simp [ctxLog, freshId, listMatchesById]
            · intro x hx
              rcases List.mem_append.mp hx with hx | hx
              · simp at hx
                subst hx
                exact ⟨rfl, rfl⟩
              · exact hp4 x hx
          · refine ⟨[Op.listDocumentsOp Coll.matches "match_id" (QVal.qi m.id),
                Op.createDocumentOp { collection := Coll.matches, docId := (freshId (listMatchesById st m.id).1).1, body := Body.matchDoc (freshId (listMatchesById st m.id).1).1 m.id c m.homeTeam.name m.awayTeam.name m.score.fullTime.home m.score.fullTime.away m.status m.utcDate, perms := some [Perm.readAny] }] ++ l5, ?_, ?_⟩
            · rw [hl5]
              simp [ctxLog, freshId, listMatchesById]
            · intro x hx
              rcases List.mem_append.mp hx with hx | hx
              · simp at hx
                subst hx
                exact ⟨rfl, rfl⟩
              · exact hp5 x hx
        · refine ⟨rfl, rfl, rfl, ⟨[], by simp [freshId, listMatchesById], by simp⟩,
            ⟨[Op.listDocumentsOp Coll.matches "match_id" (QVal.qi m.id),
              Op.createDocumentOp { collection := Coll.matches, docId := (freshId (listMatchesById st m.id).1).1, body := Body.matchDoc (freshId (listMatchesById st m.id).1).1 m.id c m.homeTeam.name m.awayTeam.name m.score.fullTime.home m.score.fullTime.away m.status m.utcDate, perms := some [Perm.readAny] }],
              by simp [freshId, listMatchesById], ?_⟩⟩
          intro x hx
          simp at hx
          subst hx
          exact ⟨rfl, rfl⟩
      · rw [if_neg hfound]
        obtain ⟨h1, h2, h3, ⟨l4, hl4, hp4⟩, ⟨l5, hl5, hp5⟩⟩ := ih
          (ctxLog (listMatchesById st m.id).1 "DEBUG: Skipped existing match")
        refine ⟨by simpa using h1, by simpa using h2, by simpa using h3, ?_, ?_⟩
        · refine ⟨l4, ?_, hp4⟩
          rw [hl4]
          simp [ctxLog, listMatchesById]
        · refine ⟨[Op.listDocumentsOp Coll.matches "match_id" (QVal.qi m.id)] ++ l5, ?_, ?_⟩
          · rw [hl5]
            simp [ctxLog, listMatchesById]
          · intro x hx
            rcases List.mem_append.mp hx with hx | hx
            · simp at hx
            · exact hp5 x hx
    · rw [if_neg hs]
      exact ih st

theorem docPermOk_standings {d : Doc} (h1 : d.collection = Coll.standings)
    (h2 : d.perms = none) : docPermOk d := by
  unfold docPermOk
  rw [h1]
  exact h2

theorem docPermOk_competitions {d : Doc} (h1 : d.collection = Coll.competitions)
    (h2 : d.perms = some [Perm.readAny]) : docPermOk d := by
  unfold docPermOk
  rw [h1]
  exact h2

theorem docPermOk_matches {d : Doc} (h1 : d.collection = Coll.matches)
    (h2 : d.perms = some [Perm.readAny]) : docPermOk d := by
  unfold docPermOk
  rw [h1]
  exact h2

theorem processFetched_state (env : Env) (st : RunState) (e : String)
    (data : Response) :
    ((processFetched env st e data).1).requestsMade = st.requestsMade ∧
    ((processFetched env st e data).1).fetchCount = st.fetchCount ∧
    ((processFetched env st e data).1).logs = st.logs ∧
    (∃ l, ((processFetched env st e data).1).store.docs = st.store.docs ++ l ∧
      ∀ d ∈ l, docPermOk d) ∧
    (∃ l, ((processFetched env st e data).1).ops = st.ops ++ l ∧ opsOk l) := by
  unfold processFetched
  cases classify e with
  | standingKind =>
    obtain ⟨h1, h2, h3, ⟨l4, hl4, hp4⟩, ⟨l5, hl5, hp5⟩⟩ :=
      insertStandings_state env (compCodeOf e) (standingsRows data) st
    exact ⟨h1, h2, h3,
      ⟨l4, hl4, fun d hd => docPermOk_standings (hp4 d hd).1 (hp4 d hd).2⟩,
      ⟨l5, hl5, fun d hd => docPermOk_standings (hp5 d hd).1 (hp5 d hd).2⟩⟩
  | competitionKind =>
    obtain ⟨h1, h2, h3, ⟨l4, hl4, hp4⟩, ⟨l5, hl5, hp5⟩⟩ :=
      processCompetition_state env st (compCodeOf e) data
    exact ⟨h1, h2, h3,
      ⟨l4, hl4, fun d hd => docPermOk_competitions (hp4 d hd).1 (hp4 d hd).2⟩,
      ⟨l5, hl5, fun d hd => docPermOk_competitions (hp5 d hd).1 (hp5 d hd).2⟩⟩
  | matchKind =>
    obtain ⟨h1, h2, h3, ⟨l4, hl4, hp4⟩, ⟨l5, hl5, hp5⟩⟩ :=
      processMatchList_state env (compCodeOf e) (matchRows data) st
    exact ⟨h1, h2, h3,
      ⟨l4, hl4, fun d hd => docPermOk_matches (hp4 d hd).1 (hp4 d hd).2⟩,
      ⟨l5, hl5, fun d hd => docPermOk_matches (hp5 d hd).1 (hp5 d hd).2⟩⟩
  | otherKind =>
    exact ⟨rfl, rfl, rfl, ⟨[], by simp, by simp⟩, ⟨[], by simp, opsOk_nil⟩⟩

theorem processTask_ok_eq (env : Env) (st : RunState) (t : Task) (data : Response)
    (hf : env.fetch t.endpoint = Except.ok data) :
    processTask env st t =
      (match processFetched env (taskMid st t.endpoint) t.endpoint data with
       | (st3, none) => st3
       | (st3, some msg) =>
           ctxLog st3 ("ERROR: Failed task " ++ t.endpoint ++ ": " ++ msg)) := by
  simp only [processTask, hf]
  rfl

theorem processTask_error_eq (env : Env) (st : RunState) (t : Task) (msg : String)
    (hf : env.fetch t.endpoint = Except.error msg) :
    processTask env st t =
      ctxLog { st with
          fetchCount := st.fetchCount + 1,
          ctxLogs := st.ctxLogs ++ ["DEBUG: Processing task " ++ t.endpoint] }
        ("ERROR: Failed task " ++ t.endpoint ++ ": " ++ msg) := by
  simp only [processTask, hf]
  rfl

theorem processTask_state (env : Env) (st : RunState) (t : Task) :
    (processTask env st t).fetchCount = st.fetchCount + 1 ∧
    (processTask env st t).requestsMade = st.requestsMade +
      (match env.fetch t.endpoint with
       | Except.ok _ => 1
       | Except.error _ => 0) ∧
    (processTask env st t).logs = st.logs ∧
    (∃ l, (processTask env st t).store.docs = st.store.docs ++ l ∧
      ∀ d ∈ l, docPermOk d) ∧
    (∃ l, (processTask env st t).ops = st.ops ++ l ∧ opsOk l) := by
  cases hf : env.fetch t.endpoint with
  | error msg =>
    rw [processTask_error_eq env st t msg hf]
    exact ⟨rfl, rfl, rfl, ⟨[], by simp [ctxLog], by simp⟩,
      ⟨[], by simp [ctxLog], opsOk_nil⟩⟩
  | ok data =>
    rw [processTask_ok_eq env st t data hf]
    obtain ⟨h1, h2, h3, ⟨l4, hl4, hp4⟩, ⟨l5, hl5, hp5⟩⟩ :=
      processFetched_state env (taskMid st t.endpoint) t.endpoint data
    rcases hpf : processFetched env (taskMid st t.endpoint) t.endpoint data with ⟨st3, err⟩
    rw [hpf] at h1 h2 h3 hl4 hl5
    cases err with
    | none =>
      refine ⟨by simpa [taskMid] using h2, by simpa [taskMid] using h1, by simpa [taskMid] using h3,
        ⟨l4, by simpa [taskMid] using hl4, hp4⟩, ⟨l5, by simpa [taskMid] using hl5, hp5⟩⟩
    | some msg =>
      refine ⟨by simpa [taskMid, ctxLog] using h2, by simpa [taskMid, ctxLog] using h1,
        by simpa [taskMid, ctxLog] using h3,
        ⟨l4, by simpa [taskMid, ctxLog] using hl4, hp4⟩,
        ⟨l5, by simpa [taskMid, ctxLog] using hl5, hp5⟩⟩

theorem runTasks_logs (env : Env) :
    ∀ (ts : List Task) (st : RunState), (runTasks env st ts).logs = st.logs := by
  intro ts
  induction ts with
  | nil => intro st; rfl
  | cons t ts ih =>
    intro st
    by_cases hb : st.requestsMade ≥ env.maxRequests
    · simp [runTasks, hb, ctxLog]
    · have h3 := (processTask_state env st t).2.2.1
      simp only [runTasks, hb, if_false]
      rw [ih (processTask env st t), h3]

theorem runTasks_docs (env : Env) :
    ∀ (ts : List Task) (st : RunState),
      ∃ l, (runTasks env st ts).store.docs = st.store.docs ++ l ∧
        ∀ d ∈ l, docPermOk d := by
  intro ts
  induction ts with
  | nil => intro st; exact ⟨[], by simp [runTasks], by simp⟩
  | cons t ts ih =>
    intro st
    by_cases hb : st.requestsMade ≥ env.maxRequests
    · exact ⟨[], by simp [runTasks, hb, ctxLog], by simp⟩
    · obtain ⟨l1, hl1, hp1⟩ := (processTask_state env st t).2.2.2.1
      obtain ⟨l2, hl2, hp2⟩ := ih (processTask env st t)
      refine ⟨l1 ++ l2, ?_, ?_⟩
      · simp only [runTasks, hb, if_false]
        rw [hl2, hl1, List.append_assoc]
      · intro d hd
        rcases List.mem_append.mp hd with hd | hd
        · exact hp1 d hd
        · exact hp2 d hd

theorem runTasks_ops (env : Env) :
    ∀ (ts : List Task) (st : RunState),
      ∃ l, (runTasks env st ts).ops = st.ops ++ l ∧ opsOk l := by
  intro ts
  induction ts with
  | nil => intro st; exact ⟨[], by simp [runTasks], opsOk_nil⟩
  | cons t ts ih =>
    intro st
    by_cases hb : st.requestsMade ≥ env.maxRequests
    · exact ⟨[], by simp [runTasks, hb, ctxLog], opsOk_nil⟩
    · obtain ⟨l1, hl1, hp1⟩ := (processTask_state env st t).2.2.2.2
      obtain ⟨l2, hl2, hp2⟩ := ih (processTask env st t)
      refine ⟨l1 ++ l2, ?_, opsOk_append hp1 hp2⟩
      simp only [runTasks, hb, if_false]
      rw [hl2, hl1, List.append_assoc]

theorem runTasks_requestsMade (env : Env) :
    ∀ (ts : List Task) (st : RunState),
      (runTasks env st ts).requestsMade =
        st.requestsMade + successfulCalls env st.requestsMade ts := by
  intro ts
  induction ts with
  | nil => intro st; simp [runTasks, successfulCalls]
  | cons t ts ih =>
    intro st
    by_cases hb : st.requestsMade ≥ env.maxRequests
    · simp [runTasks, successfulCalls, hb, ctxLog]
    · have hrm := (processTask_state env st t).2.1
      simp only [runTasks, successfulCalls, hb, if_false]
      rw [ih (processTask env st t), hrm]
      cases hf : env.fetch t.endpoint with
      | error msg => simp
      | ok data => simp; omega

theorem runTasks_fetchCount (env : Env) :
    ∀ (ts : List Task) (st : RunState),
      (runTasks env st ts).fetchCount =
        st.fetchCount + attemptedCalls env st.requestsMade ts := by
  intro ts
  induction ts with
  | nil => intro st; simp [runTasks, attemptedCalls]
  | cons t ts ih =>
    intro st
    by_cases hb : st.requestsMade ≥ env.maxRequests
    · simp [runTasks, attemptedCalls, hb, ctxLog]
    · have hfc := (processTask_state env st t).1
      have hrm := (processTask_state env st t).2.1
      simp only [runTasks, attemptedCalls, hb, if_false]
      rw [ih (processTask env st t), hfc, hrm]
      cases hf : env.fetch t.endpoint with
      | error msg => simp; omega
      | ok data => simp; omega

theorem successfulCalls_bounded (env : Env) :
    ∀ (ts : List Task) (r : Nat), r ≤ env.maxRequests →
      r + successfulCalls env r ts ≤ env.maxRequests := by
  intro ts
  induction ts with
  | nil => intro r hr; simpa [successfulCalls] using hr
  | cons t ts ih =>
    intro r hr
    by_cases hb : r ≥ env.maxRequests
    · simp [successfulCalls, hb]
      omega
    · have hlt : r + 1 ≤ env.maxRequests := by omega
      cases hf : env.fetch t.endpoint with
      | error msg =>
        simp only [successfulCalls, hb, if_false, hf]
        exact ih r hr
      | ok data =>
        simp only [successfulCalls, hb, if_false, hf]
        have := ih (r + 1) hlt
        omega

theorem attemptedCalls_of_allOk (env : Env)
    (hok : ∀ e, ∃ r, env.fetch e = Except.ok r) :
    ∀ (ts : List Task) (r : Nat),
      attemptedCalls env r ts = successfulCalls env r ts := by
  intro ts
  induction ts with
  | nil => intro r; rfl
  | cons t ts ih =>
    intro r
    by_cases hb : r ≥ env.maxRequests
    · simp [attemptedCalls, successfulCalls, hb]
    · obtain ⟨resp, hresp⟩ := hok t.endpoint
      simp only [attemptedCalls, successfulCalls, hb, if_false, hresp]
      rw [ih (r + 1)]

/-! ### Claim theorems -/

/-- C4: the classifier applies its three checks in the source's fixed
order — standings suffix first, then bare competition, then matches — and
extracts the competition code as the third path segment.  The standings
endpoint also satisfies the bare-competition condition and the matches
endpoint also satisfies the naive competitions-path test, so the
recorded kinds witness the priority order. -/
theorem claim4_classifier :
    classify "/competitions/PL/standings" = Kind.standingKind ∧
    compCodeOf "/competitions/PL/standings" = "PL" ∧
    classify "/competitions/PL" = Kind.competitionKind ∧
    compCodeOf "/competitions/PL" = "PL" ∧
    classify "/competitions/PL/matches?status=FINISHED" = Kind.matchKind ∧
    compCodeOf "/competitions/PL/matches?status=FINISHED" = "PL" ∧
    jsStartsWith "/competitions/PL/matches?status=FINISHED" "/competitions/" = true ∧
    (jsStartsWith "/competitions/PL/standings" "/competitions/" &&
      !(jsIncludes "/competitions/PL/standings" "/matches")) = true := by
  decide

/-- C9: the logs field of the returned result is the empty list in both
the success and the error shape: the logs array is created at entry and
never appended to. -/
theorem claim9_result_logs_empty (env : Env) (store : Store) :
    (handler env store).1.logs = [] := by
  unfold handler
  cases hin : env.initError with
  | some msg => rfl
  | none =>
    show (runTasks env (initState store) tasks).logs = []
    rw [runTasks_logs]
    rfl

/-- C10: every document is created through an operation that attaches the
public-read permission exactly when the collection is competitions or
matches and no permission argument for standings, and the store is only
ever appended to — no update or delete of an existing document occurs. -/
theorem claim10_permissions_create_only (env : Env) (store : Store) :
    (∀ d, Op.createDocumentOp d ∈ (handler env store).2.ops → docPermOk d) ∧
    (∃ l, (handler env store).2.store.docs = store.docs ++ l) := by
  unfold handler
  cases hin : env.initError with
  | some msg =>
    refine ⟨?_, ⟨[], by simp [initState]⟩⟩
    intro d hd
    simp [initState] at hd
  | none =>
    obtain ⟨l, hl, hp⟩ := runTasks_ops env tasks (initState store)
    obtain ⟨l2, hl2, _⟩ := runTasks_docs env tasks (initState store)
    refine ⟨?_, ⟨l2, by simpa [initState] using hl2⟩⟩
    intro d hd
    apply hp d
    have : (runTasks env (initState store) tasks).ops = l := by
      simpa [initState] using hl
    rwa [this] at hd

/-- C8: every per-task failure is absorbed by the per-task catch, so the
loop steps from any non-break state to the next task unconditionally, and
once the loop has started the invocation reports status success with no
error message, whatever happened inside the tasks. -/
theorem claim8_task_failures_contained (env : Env) (store : Store)
    (h : env.initError = none) :
    (handler env store).1.status = "success" ∧
    (handler env store).1.message = none ∧
    (∀ (st : RunState) (t : Task) (ts : List Task),
      ¬ st.requestsMade ≥ env.maxRequests →
      runTasks env st (t :: ts) = runTasks env (processTask env st t) ts) := by
  unfold handler
  rw [h]
  exact ⟨rfl, rfl, fun st t ts hb => by simp [runTasks, hb]⟩

/-- C8 witness: in the environment where every fetch fails, the invocation
still reports success with no message. -/
theorem claim8_witness :
    (handler failFetchEnv emptyStore).1.status = "success" ∧
    (handler failFetchEnv emptyStore).1.message = none :=
  ⟨(claim8_task_failures_contained failFetchEnv emptyStore rfl).1,
   (claim8_task_failures_contained failFetchEnv emptyStore rfl).2.1⟩

/-- C1 counterexample: with the default budget of 10 and a task list of 11
tasks whose fetches all fail, the loop attempts 11 upstream calls — more
than the budget — because the counter only advances on successful calls
and so never triggers the break. -/
theorem claim1_counterexample :
    failFetchEnv.maxRequests = 10 ∧
    (runTasks failFetchEnv (initState emptyStore) elevenTasks).requestsMade = 0 ∧
    10 < (runTasks failFetchEnv (initState emptyStore) elevenTasks).fetchCount := by
  refine ⟨rfl, ?_, ?_⟩ <;> decide

/-- C1 amended: the request counter (successful upstream calls) never
exceeds the budget; when every fetch succeeds the attempted calls are
bounded by the budget as well; and once the counter has reached the
budget the loop breaks at once, performing no further work. -/
theorem claim1_amended_budget (env : Env) (st : RunState) (ts : List Task)
    (h : st.requestsMade ≤ env.maxRequests) :
    (runTasks env st ts).requestsMade ≤ env.maxRequests ∧
    ((∀ e, ∃ r, env.fetch e = Except.ok r) →
      (runTasks env st ts).fetchCount + st.requestsMade ≤
        st.fetchCount + env.maxRequests) ∧
    (env.maxRequests ≤ st.requestsMade → ∀ t rest,
      runTasks env st (t :: rest) = ctxLog st "INFO: Max requests reached") := by
  refine ⟨?_, ?_, ?_⟩
  · rw [runTasks_requestsMade]
    exact successfulCalls_bounded env ts st.requestsMade h
  · intro hok
    rw [runTasks_fetchCount, attemptedCalls_of_allOk env hok]
    have := successfulCalls_bounded env ts st.requestsMade h
    omega
  · intro hmax t rest
    have hb : st.requestsMade ≥ env.maxRequests := hmax
    simp [runTasks, hb]

/-- C1 amended witness: the bound instantiated on the real nine-task queue
from a fresh state. -/
theorem claim1_amended_witness :
    (runTasks failFetchEnv (initState emptyStore) tasks).requestsMade ≤
      failFetchEnv.maxRequests ∧
    ((∀ e, ∃ r, failFetchEnv.fetch e = Except.ok r) →
      (runTasks failFetchEnv (initState emptyStore) tasks).fetchCount +
        (initState emptyStore).requestsMade ≤
        (initState emptyStore).fetchCount + failFetchEnv.maxRequests) ∧
    (failFetchEnv.maxRequests ≤ (initState emptyStore).requestsMade →
      ∀ t rest, runTasks failFetchEnv (initState emptyStore) (t :: rest) =
        ctxLog (initState emptyStore) "INFO: Max requests reached") :=
  claim1_amended_budget failFetchEnv (initState emptyStore) tasks (by decide)

/-- C3 counterexample: a task whose fetch fails is an attempted upstream
call (fetchCount rises to 1) yet contributes no increment to the request
counter, contradicting the claim that every attempted call — including one
whose fetch fails — contributes exactly one increment. -/
theorem claim3_counterexample :
    (processTask failFetchEnv (initState emptyStore) plTask).fetchCount = 1 ∧
    (processTask failFetchEnv (initState emptyStore) plTask).requestsMade = 0 := by
  constructor <;> decide

/-- C3 amended: each attempted call raises fetchCount by one; the counter
is incremented exactly once when and only when the fetch succeeds,
immediately after the response, and the downstream processing of the
response never touches the counter, so the increment survives
classification and store-write failures. -/
theorem claim3_amended_counter (env : Env) (st : RunState) (t : Task) :
    (processTask env st t).fetchCount = st.fetchCount + 1 ∧
    (processTask env st t).requestsMade = st.requestsMade +
      (match env.fetch t.endpoint with
       | Except.ok _ => 1
       | Except.error _ => 0) ∧
    (∀ (st0 : RunState) (e : String) (data : Response),
      ((processFetched env st0 e data).1).requestsMade = st0.requestsMade) :=
  ⟨(processTask_state env st t).1, (processTask_state env st t).2.1,
   fun st0 e data => (processFetched_state env st0 e data).1⟩

theorem insertStandings_allOk (env : Env) (hw : env.writeOk = fun _ => true)
    (c : String) :
    ∀ (rows : List TableRow) (st : RunState),
      ((insertStandings env c st rows).1).store.docs =
        st.store.docs ++ standingDocsFrom c st.store.nextId rows ∧
      ((insertStandings env c st rows).1).ops =
        st.ops ++ (standingDocsFrom c st.store.nextId rows).map Op.createDocumentOp ∧
      ((insertStandings env c st rows).1).store.nextId =
        st.store.nextId + rows.length ∧
      (insertStandings env c st rows).2 = none := by
  intro rows
  induction rows with
  | nil =>
    intro st
    refine ⟨by simp [insertStandings, standingDocsFrom], by simp [insertStandings, standingDocsFrom], by simp [insertStandings], rfl⟩
  | cons row rest ih =>
    intro st
    have hwd : ∀ d : Doc, env.writeOk d = true := by
      intro d
      rw [hw]
    have hred : insertStandings env c st (row :: rest) =
        insertStandings env c
          (ctxLog { (freshId st).2 with
              ops := (freshId st).2.ops ++
                [Op.createDocumentOp
                  { collection := Coll.standings, docId := (freshId st).1,
                    body := Body.standing c row.position row.team.name row.points row.playedGames,
                    perms := none }],
              store := { (freshId st).2.store with
                docs := (freshId st).2.store.docs ++
                  [{ collection := Coll.standings, docId := (freshId st).1,
                     body := Body.standing c row.position row.team.name row.points row.playedGames,
                     perms := none }] } }
            ("DEBUG: Saved standing for " ++ c)) rest := by
      simp only [insertStandings, createDocument]
      rw [if_pos (hwd _)]
    rw [hred]
    obtain ⟨h1, h2, h3, h4⟩ := ih _
    refine ⟨?_, ?_, ?_, h4⟩
    · rw [h1]
      simp [ctxLog, freshId, standingDocsFrom]
    · rw [h2]
      simp [ctxLog, freshId, standingDocsFrom]
    · rw [h3]
      simp [ctxLog, freshId]
      omega

/-- C6: with a reliable store, the standings branch inserts one document
per table row, in table order, with no existence query anywhere in its
trace and no error; when the standings-table path is absent the branch
does nothing and reports no error; the 12-row response yields the first 10
rows, so one run inserts exactly 10 standing documents and a second run
doubles that to 20. -/
theorem claim6_standings_unconditional :
    (∀ (env : Env) (st : RunState) (c : String) (rows : List TableRow),
      env.writeOk = (fun _ => true) →
      ((insertStandings env c st rows).1).store.docs =
        st.store.docs ++ standingDocsFrom c st.store.nextId rows ∧
      ((insertStandings env c st rows).1).ops =
        st.ops ++ (standingDocsFrom c st.store.nextId rows).map Op.createDocumentOp ∧
      (insertStandings env c st rows).2 = none) ∧
    (∀ (env : Env) (st : RunState) (e : String) (data : Response),
      data.standings = none → classify e = Kind.standingKind →
      processFetched env st e data = (st, none)) ∧
    (standingsRows standingsResponse12).length = 10 ∧
    standingsRows standingsAbsentResponse = [] ∧
    (standingDocs (processTask standingsEnv (initState emptyStore) plStandingsTask).store).length = 10 ∧
    (standingDocs (processTask standingsEnv
      (processTask standingsEnv (initState emptyStore) plStandingsTask)
      plStandingsTask).store).length = 20 ∧
    (processTask standingsEnv (initState emptyStore) plStandingsTask).ops =
      (standingDocsFrom "PL" 0 (standingsRows standingsResponse12)).map Op.createDocumentOp := by
  refine ⟨?_, ?_, by decide, by decide, by decide, by decide, by decide⟩
  · intro env st c rows hw
    obtain ⟨h1, h2, _, h4⟩ := insertStandings_allOk env hw c rows st
    exact ⟨h1, h2, h4⟩
  · intro env st e data hsd hcl
    unfold processFetched
    rw [hcl]
    have : standingsRows data = [] := by
      simp [standingsRows, hsd]
    rw [this]
    rfl

/-- C6 witness: the unconditional-insert shape instantiated on the 12-row
response in the standings environment. -/
theorem claim6_witness :
    ((insertStandings standingsEnv "PL" (initState emptyStore)
        (standingsRows standingsResponse12)).1).store.docs =
      (initState emptyStore).store.docs ++
        standingDocsFrom "PL" (initState emptyStore).store.nextId
          (standingsRows standingsResponse12) ∧
    ((insertStandings standingsEnv "PL" (initState emptyStore)
        (standingsRows standingsResponse12)).1).ops =
      (initState emptyStore).ops ++
        (standingDocsFrom "PL" (initState emptyStore).store.nextId
          (standingsRows standingsResponse12)).map Op.createDocumentOp ∧
    (insertStandings standingsEnv "PL" (initState emptyStore)
        (standingsRows standingsResponse12)).2 = none :=
  claim6_standings_unconditional.1 standingsEnv (initState emptyStore) "PL"
    (standingsRows standingsResponse12) rfl

/-- C5: on the §8 Matches payload the first-10 slice is applied before the
status filter and exactly the two FINISHED entries among the sliced ones
produce an insert attempt, each immediately preceded by its match_id
existence query; the variant payload whose 11th entry is also FINISHED
still produces only 2 documents, showing the slice comes first; entries
with any other status leave no trace at all. -/
theorem claim5_match_slice_filter :
    (processTask (matchesEnv matchList11) (initState emptyStore) plMatchesTask).ops =
      [Op.listDocumentsOp Coll.matches "match_id" (QVal.qi 1),
       Op.createDocumentOp
         { collection := Coll.matches, docId := "uid0",
           body := Body.matchDoc "uid0" 1 "PL" "Home1" "Away1"
             (some 1) (some 0) "FINISHED" "2025-05-01T15:00:00Z",
           perms := some [Perm.readAny] },
       Op.listDocumentsOp Coll.matches "match_id" (QVal.qi 3),
       Op.createDocumentOp
         { collection := Coll.matches, docId := "uid1",
           body := Body.matchDoc "uid1" 3 "PL" "Home3" "Away3"
             (some 1) (some 0) "FINISHED" "2025-05-03T15:00:00Z",
           perms := some [Perm.readAny] }] ∧
    (matchDocs (processTask (matchesEnv matchList11)
      (initState emptyStore) plMatchesTask).store).length = 2 ∧
    matchRows (matchesResponse matchList11) = matchList11.take 10 ∧
    (matchDocs (processTask (matchesEnv matchList11plus)
      (initState emptyStore) plMatchesTask).store).length = 2 := by
  refine ⟨by decide, by decide, by decide, by decide⟩

/-- C7: fetching /competitions/PL against an empty store performs one
existence query followed by exactly one insert whose document carries code
PL, name Premier League and area_name England; repeating the task against
the resulting store performs the query only — zero inserts, the store is
unchanged and the task ends with a skip log entry rather than an error. -/
theorem claim7_competition_insert_then_skip :
    (processTask compOnlyEnv (initState emptyStore) plTask).ops =
      [Op.listDocumentsOp Coll.competitions "code" (QVal.qs "PL"),
       Op.createDocumentOp
         { collection := Coll.competitions, docId := "uid0",
           body := Body.comp "PL" "Premier League" "England",
           perms := some [Perm.readAny] }] ∧
    compDocs (processTask compOnlyEnv (initState emptyStore) plTask).store =
      [{ collection := Coll.competitions, docId := "uid0",
         body := Body.comp "PL" "Premier League" "England",
         perms := some [Perm.readAny] }] ∧
    (processTask compOnlyEnv
      (processTask compOnlyEnv (initState emptyStore) plTask) plTask).store.docs =
      (processTask compOnlyEnv (initState emptyStore) plTask).store.docs ∧
    (processTask compOnlyEnv
      (processTask compOnlyEnv (initState emptyStore) plTask) plTask).ops =
      (processTask compOnlyEnv (initState emptyStore) plTask).ops ++
        [Op.listDocumentsOp Coll.competitions "code" (QVal.qs "PL")] ∧
    (processTask compOnlyEnv
      (processTask compOnlyEnv (initState emptyStore) plTask) plTask).ctxLogs =
      (processTask compOnlyEnv (initState emptyStore) plTask).ctxLogs ++
        ["DEBUG: Processing task /competitions/PL",
         "DEBUG: Skipped existing competition PL"] := by
  refine ⟨by decide, by decide, by decide, by decide, by decide⟩

/-! ### Helpers for the two-run comparison -/

theorem filter_len_le_of_append {p : Doc → Bool} {a b : List Doc}
    (h : ∃ l, b = a ++ l) : (a.filter p).length ≤ (b.filter p).length := by
  obtain ⟨l, rfl⟩ := h
  simp [List.filter_append]

theorem compCodeHit_false_of_standings {c : String} {d : Doc}
    (h : d.collection = Coll.standings) : compCodeHit c d = false := by
  simp [compCodeHit, h]

theorem compCodeHit_false_of_matches {c : String} {d : Doc}
    (h : d.collection = Coll.matches) : compCodeHit c d = false := by
  simp [compCodeHit, h]

theorem matchIdHit_false_of_standings {i : Int} {d : Doc}
    (h : d.collection = Coll.standings) : matchIdHit i d = false := by
  simp [matchIdHit, h]

theorem matchIdHit_false_of_competitions {i : Int} {d : Doc}
    (h : d.collection = Coll.competitions) : matchIdHit i d = false := by
  simp [matchIdHit, h]

theorem standingHit_false_of_competitions {d : Doc}
    (h : d.collection = Coll.competitions) :
    (d.collection == Coll.standings) = false := by
  simp [h]

theorem standingHit_false_of_matches {d : Doc}
    (h : d.collection = Coll.matches) :
    (d.collection == Coll.standings) = false := by
  simp [h]

theorem filter_append_nil_right {p : Doc → Bool} (a l : List Doc)
    (h : ∀ d ∈ l, p d = false) :
    (a ++ l).filter p = a.filter p := by
  rw [List.filter_append]
  have : l.filter p = [] := by
    rw [List.filter_eq_nil_iff]
    intro d hd
    simp [h d hd]
  rw [this, List.append_nil]

theorem standingDocsFrom_length (c : String) :
    ∀ (n : Nat) (rows : List TableRow),
      (standingDocsFrom c n rows).length = rows.length := by
  intro n rows
  induction rows generalizing n with
  | nil => rfl
  | cons row rest ih => simp [standingDocsFrom, ih]

theorem standingDocsFrom_filter_standings (c : String) :
    ∀ (n : Nat) (rows : List TableRow),
      ((standingDocsFrom c n rows).filter
        (fun d => d.collection == Coll.standings)).length = rows.length := by
  intro n rows
  induction rows generalizing n with
  | nil => rfl
  | cons row rest ih => simp [standingDocsFrom, ih]

theorem processCompetition_docs_area_none (env : Env) (u : RunState) (c : String)
    (data : Response) (harea : data.area = none) :
    ((processCompetition env u c data).1).store.docs = u.store.docs := by
  simp only [processCompetition, listCompetitions_snd]
  by_cases hq : (u.store.docs.filter (compCodeHit c)).length = 0
  · rw [if_pos hq, harea]
    rfl
  · rw [if_neg hq]
    rfl

theorem processCompetition_docs_skip (env : Env) (u : RunState) (c : String)
    (data : Response) (hq : ¬ (u.store.docs.filter (compCodeHit c)).length = 0) :
    ((processCompetition env u c data).1).store.docs = u.store.docs := by
  simp only [processCompetition, listCompetitions_snd]
  rw [if_neg hq]
  rfl

theorem processCompetition_hit (env : Env) (hw : env.writeOk = fun _ => true)
    (u : RunState) (c : String) (data : Response) (a : NameObj)
    (harea : data.area = some a) :
    0 < ((((processCompetition env u c data).1).store.docs).filter (compCodeHit c)).length := by
  by_cases hq : (u.store.docs.filter (compCodeHit c)).length = 0
  · simp only [processCompetition, listCompetitions_snd]
    rw [if_pos hq, harea]
    dsimp only
    have hwd : env.writeOk
        { collection := Coll.competitions, docId := (freshId (listCompetitions u c).1).1,
          body := Body.comp c data.name a.name, perms := some [Perm.readAny] } = true := by
      rw [hw]
    rcases createDocument_cases env (freshId (listCompetitions u c).1).2
        { collection := Coll.competitions, docId := (freshId (listCompetitions u c).1).1,
          body := Body.comp c data.name a.name, perms := some [Perm.readAny] } with ⟨_, hcd⟩ | ⟨hww, _⟩
    · rw [hcd]
      show 0 < ((((freshId (listCompetitions u c).1).2.store.docs ++ [_]).filter (compCodeHit c)).length)
      rw [List.filter_append]
      have hhit : compCodeHit c
          { collection := Coll.competitions, docId := (freshId (listCompetitions u c).1).1,
            body := Body.comp c data.name a.name, perms := some [Perm.readAny] } = true := by
        simp [compCodeHit]
      simp [hhit]
    · rw [hww] at hwd
      exact absurd hwd (by simp)
  · rw [processCompetition_docs_skip env u c data hq]
    omega

theorem processMatchList_lockstep (env : Env) (hw : env.writeOk = fun _ => true)
    (c : String) :
    ∀ (ms : List MatchEntry) (u1 u2 : RunState),
      (∀ i, 0 < ((((processMatchList env c u1 ms).1).store.docs).filter (matchIdHit i)).length →
            0 < ((u2.store.docs).filter (matchIdHit i)).length) →
      ((processMatchList env c u2 ms).1).store.docs = u2.store.docs := by
  intro ms
  induction ms with
  | nil =>
    intro u1 u2 hm
    rfl
  | cons m rest ih =>
    intro u1 u2 hm
    by_cases hs : m.status = "FINISHED"
    · by_cases hq1 : (u1.store.docs.filter (matchIdHit m.id)).length = 0
      · have hwd : env.writeOk { collection := Coll.matches, docId := (freshId (listMatchesById u1 m.id).1).1, body := Body.matchDoc (freshId (listMatchesById u1 m.id).1).1 m.id c m.homeTeam.name m.awayTeam.name m.score.fullTime.home m.score.fullTime.away m.status m.utcDate, perms := some [Perm.readAny] } = true := by rw [hw]
        rcases createDocument_cases env (freshId (listMatchesById u1 m.id).1).2
            { collection := Coll.matches, docId := (freshId (listMatchesById u1 m.id).1).1, body := Body.matchDoc (freshId (listMatchesById u1 m.id).1).1 m.id c m.homeTeam.name m.awayTeam.name m.score.fullTime.home m.score.fullTime.away m.status m.utcDate, perms := some [Perm.readAny] } with ⟨_, hcd⟩ | ⟨hww, _⟩
        · have hred1 : processMatchList env c u1 (m :: rest) =
              processMatchList env c
                (ctxLog { (freshId (listMatchesById u1 m.id).1).2 with
                    ops := (freshId (listMatchesById u1 m.id).1).2.ops ++
                      [Op.createDocumentOp { collection := Coll.matches, docId := (freshId (listMatchesById u1 m.id).1).1, body := Body.matchDoc (freshId (listMatchesById u1 m.id).1).1 m.id c m.homeTeam.name m.awayTeam.name m.score.fullTime.home m.score.fullTime.away m.status m.utcDate, perms := some [Perm.readAny] }],
                    store := { (freshId (listMatchesById u1 m.id).1).2.store with
                      docs := (freshId (listMatchesById u1 m.id).1).2.store.docs ++ [{ collection := Coll.matches, docId := (freshId (listMatchesById u1 m.id).1).1, body := Body.matchDoc (freshId (listMatchesById u1 m.id).1).1 m.id c m.homeTeam.name m.awayTeam.name m.score.fullTime.home m.score.fullTime.away m.status m.utcDate, perms := some [Perm.readAny] }] } }
                  "DEBUG: Saved match") rest := by
            simp only [processMatchList, listMatchesById_snd]
            rw [if_pos hs, if_pos hq1, hcd]
          have hhit : matchIdHit m.id { collection := Coll.matches, docId := (freshId (listMatchesById u1 m.id).1).1, body := Body.matchDoc (freshId (listMatchesById u1 m.id).1).1 m.id c m.homeTeam.name m.awayTeam.name m.score.fullTime.home m.score.fullTime.away m.status m.utcDate, perms := some [Perm.readAny] } = true := by
            simp [matchIdHit]
          obtain ⟨_, _, _, ⟨lrest, hlrest, _⟩, _⟩ := processMatchList_state env c rest
            (ctxLog ({ (freshId (listMatchesById u1 m.id).1).2 with
                    ops := (freshId (listMatchesById u1 m.id).1).2.ops ++
                      [Op.createDocumentOp { collection := Coll.matches, docId := (freshId (listMatchesById u1 m.id).1).1, body := Body.matchDoc (freshId (listMatchesById u1 m.id).1).1 m.id c m.homeTeam.name m.awayTeam.name m.score.fullTime.home m.score.fullTime.away m.status m.utcDate, perms := some [Perm.readAny] }],
                    store := { (freshId (listMatchesById u1 m.id).1).2.store with
                      docs := (freshId (listMatchesById u1 m.id).1).2.store.docs ++ [{ collection := Coll.matches, docId := (freshId (listMatchesById u1 m.id).1).1, body := Body.matchDoc (freshId (listMatchesById u1 m.id).1).1 m.id c m.homeTeam.name m.awayTeam.name m.score.fullTime.home m.score.fullTime.away m.status m.utcDate, perms := some [Perm.readAny] }] } } : RunState)
                  "DEBUG: Saved match")
          have hfinalhit : 0 <
              ((((processMatchList env c u1 (m :: rest)).1).store.docs).filter (matchIdHit m.id)).length := by
            rw [hred1, hlrest, List.filter_append, List.length_append]
            refine Nat.lt_of_lt_of_le ?_ (Nat.le_add_right _ _)
            show 0 < ((u1.store.docs ++ [({ collection := Coll.matches, docId := (freshId (listMatchesById u1 m.id).1).1, body := Body.matchDoc (freshId (listMatchesById u1 m.id).1).1 m.id c m.homeTeam.name m.awayTeam.name m.score.fullTime.home m.score.fullTime.away m.status m.utcDate, perms := some [Perm.readAny] } : Doc)]).filter (matchIdHit m.id)).length
            rw [List.filter_append]
            simp [hhit]
          have hq2 : ¬ (u2.store.docs.filter (matchIdHit m.id)).length = 0 := by
            have := hm m.id hfinalhit
            omega
          have hred2 : processMatchList env c u2 (m :: rest) =
              processMatchList env c
                (ctxLog (listMatchesById u2 m.id).1 "DEBUG: Skipped existing match") rest := by
            simp only [processMatchList, listMatchesById_snd]
            rw [if_pos hs, if_neg hq2]
          rw [hred2]
          refine (ih
            (ctxLog ({ (freshId (listMatchesById u1 m.id).1).2 with
                    ops := (freshId (listMatchesById u1 m.id).1).2.ops ++
                      [Op.createDocumentOp { collection := Coll.matches, docId := (freshId (listMatchesById u1 m.id).1).1, body := Body.matchDoc (freshId (listMatchesById u1 m.id).1).1 m.id c m.homeTeam.name m.awayTeam.name m.score.fullTime.home m.score.fullTime.away m.status m.utcDate, perms := some [Perm.readAny] }],
                    store := { (freshId (listMatchesById u1 m.id).1).2.store with
                      docs := (freshId (listMatchesById u1 m.id).1).2.store.docs ++ [{ collection := Coll.matches, docId := (freshId (listMatchesById u1 m.id).1).1, body := Body.matchDoc (freshId (listMatchesById u1 m.id).1).1 m.id c m.homeTeam.name m.awayTeam.name m.score.fullTime.home m.score.fullTime.away m.status m.utcDate, perms := some [Perm.readAny] }] } } : RunState)
                  "DEBUG: Saved match")
            (ctxLog (listMatchesById u2 m.id).1 "DEBUG: Skipped existing match") ?_).trans rfl
          intro i hi
          apply hm i
          rw [hred1]
          exact hi
        · rw [hww] at hwd
          exact absurd hwd (by simp)
      · have hred1 : processMatchList env c u1 (m :: rest) =
            processMatchList env c
              (ctxLog (listMatchesById u1 m.id).1 "DEBUG: Skipped existing match") rest := by
          simp only [processMatchList, listMatchesById_snd]
          rw [if_pos hs, if_neg hq1]
        obtain ⟨_, _, _, ⟨lrest, hlrest, _⟩, _⟩ := processMatchList_state env c rest
          (ctxLog (listMatchesById u1 m.id).1 "DEBUG: Skipped existing match")
        have hfinalhit : 0 <
            ((((processMatchList env c u1 (m :: rest)).1).store.docs).filter (matchIdHit m.id)).length := by
          rw [hred1, hlrest, List.filter_append, List.length_append]
          refine Nat.lt_of_lt_of_le ?_ (Nat.le_add_right _ _)
          show 0 < ((u1.store.docs).filter (matchIdHit m.id)).length
          omega
        have hq2 : ¬ (u2.store.docs.filter (matchIdHit m.id)).length = 0 := by
          have := hm m.id hfinalhit
          omega
        have hred2 : processMatchList env c u2 (m :: rest) =
            processMatchList env c
              (ctxLog (listMatchesById u2 m.id).1 "DEBUG: Skipped existing match") rest := by
          simp only [processMatchList, listMatchesById_snd]
          rw [if_pos hs, if_neg hq2]
        rw [hred2]
        refine (ih (ctxLog (listMatchesById u1 m.id).1 "DEBUG: Skipped existing match")
          (ctxLog (listMatchesById u2 m.id).1 "DEBUG: Skipped existing match") ?_).trans rfl
        intro i hi
        apply hm i
        rw [hred1]
        exact hi
    · have hred1 : processMatchList env c u1 (m :: rest) = processMatchList env c u1 rest := by
        simp only [processMatchList]
        rw [if_neg hs]
      have hred2 : processMatchList env c u2 (m :: rest) = processMatchList env c u2 rest := by
        simp only [processMatchList]
        rw [if_neg hs]
      rw [hred2]
      apply ih u1 u2
      intro i hi
      apply hm i
      rw [hred1]
      exact hi

theorem processFetched_lockstep (env : Env) (hw : env.writeOk = fun _ => true)
    (e : String) (data : Response) (u1 u2 : RunState)
    (hc : ∀ c, 0 < ((((processFetched env u1 e data).1).store.docs).filter (compCodeHit c)).length →
          0 < ((u2.store.docs).filter (compCodeHit c)).length)
    (hm : ∀ i, 0 < ((((processFetched env u1 e data).1).store.docs).filter (matchIdHit i)).length →
          0 < ((u2.store.docs).filter (matchIdHit i)).length) :
    compDocs ((processFetched env u2 e data).1).store = compDocs u2.store ∧
    matchDocs ((processFetched env u2 e data).1).store = matchDocs u2.store ∧
    (∃ k, (standingDocs ((processFetched env u2 e data).1).store).length =
            (standingDocs u2.store).length + k ∧
          (standingDocs ((processFetched env u1 e data).1).store).length =
            (standingDocs u1.store).length + k) := by
  cases hcl : classify e with
  | standingKind =>
    simp only [processFetched, hcl] at hc hm ⊢
    obtain ⟨_, _, _, ⟨l2, hl2, hp2⟩, _⟩ :=
      insertStandings_state env (compCodeOf e) (standingsRows data) u2
    obtain ⟨ha1, _, _, _⟩ :=
      insertStandings_allOk env hw (compCodeOf e) (standingsRows data) u1
    obtain ⟨ha2, _, _, _⟩ :=
      insertStandings_allOk env hw (compCodeOf e) (standingsRows data) u2
    refine ⟨?_, ?_, (standingsRows data).length, ?_, ?_⟩
    · unfold compDocs
      rw [hl2]
      exact filter_append_nil_right _ l2 (fun d hd => by simp [(hp2 d hd).1])
    · unfold matchDocs
      rw [hl2]
      exact filter_append_nil_right _ l2 (fun d hd => by simp [(hp2 d hd).1])
    · unfold standingDocs
      rw [ha2, List.filter_append, List.length_append,
        standingDocsFrom_filter_standings]
    · unfold standingDocs
      rw [ha1, List.filter_append, List.length_append,
        standingDocsFrom_filter_standings]
  | competitionKind =>
    simp only [processFetched, hcl] at hc hm ⊢
    cases harea : data.area with
    | none =>
      have hd1 := processCompetition_docs_area_none env u1 (compCodeOf e) data harea
      have hd2 := processCompetition_docs_area_none env u2 (compCodeOf e) data harea
      exact ⟨by simp [compDocs, hd2], by simp [matchDocs, hd2], 0,
        by simp [standingDocs, hd2], by simp [standingDocs, hd1]⟩
    | some a =>
      have hq2 : ¬ (u2.store.docs.filter (compCodeHit (compCodeOf e))).length = 0 := by
        have h1 := processCompetition_hit env hw u1 (compCodeOf e) data a harea
        have := hc (compCodeOf e) h1
        omega
      have hd2 := processCompetition_docs_skip env u2 (compCodeOf e) data hq2
      obtain ⟨_, _, _, ⟨l1, hl1, hp1⟩, _⟩ :=
        processCompetition_state env u1 (compCodeOf e) data
      refine ⟨by simp [compDocs, hd2], by simp [matchDocs, hd2], 0,
        by simp [standingDocs, hd2], ?_⟩
      unfold standingDocs
      rw [hl1, filter_append_nil_right _ l1 (fun d hd => by simp [(hp1 d hd).1])]
      omega
  | matchKind =>
    simp only [processFetched, hcl] at hc hm ⊢
    have hd2 : ((processMatchList env (compCodeOf e) u2 (matchRows data)).1).store.docs =
        u2.store.docs :=
      processMatchList_lockstep env hw (compCodeOf e) (matchRows data) u1 u2 hm
    obtain ⟨_, _, _, ⟨l1, hl1, hp1⟩, _⟩ :=
      processMatchList_state env (compCodeOf e) (matchRows data) u1
    refine ⟨by simp [compDocs, hd2], by simp [matchDocs, hd2], 0,
      by simp [standingDocs, hd2], ?_⟩
    unfold standingDocs
    rw [hl1, filter_append_nil_right _ l1 (fun d hd => by simp [(hp1 d hd).1])]
    omega
  | otherKind =>
    simp only [processFetched, hcl] at hc hm ⊢
    exact ⟨by simp, by simp, 0, by simp, by simp⟩

theorem processTask_lockstep (env : Env) (hw : env.writeOk = fun _ => true)
    (t : Task) (st1 st2 : RunState)
    (hc : ∀ c, 0 < (((processTask env st1 t).store.docs).filter (compCodeHit c)).length →
          0 < ((st2.store.docs).filter (compCodeHit c)).length)
    (hm : ∀ i, 0 < (((processTask env st1 t).store.docs).filter (matchIdHit i)).length →
          0 < ((st2.store.docs).filter (matchIdHit i)).length) :
    compDocs (processTask env st2 t).store = compDocs st2.store ∧
    matchDocs (processTask env st2 t).store = matchDocs st2.store ∧
    (∃ k, (standingDocs (processTask env st2 t).store).length =
            (standingDocs st2.store).length + k ∧
          (standingDocs (processTask env st1 t).store).length =
            (standingDocs st1.store).length + k) := by
  cases hf : env.fetch t.endpoint with
  | error msg =>
    rw [processTask_error_eq env st1 t msg hf] at hc hm ⊢
    rw [processTask_error_eq env st2 t msg hf]
    exact ⟨rfl, rfl, 0, rfl, rfl⟩
  | ok data =>
    rw [processTask_ok_eq env st1 t data hf] at hc hm ⊢
    rw [processTask_ok_eq env st2 t data hf]
    have hcF : ∀ c, 0 < ((((processFetched env (taskMid st1 t.endpoint) t.endpoint data).1).store.docs).filter (compCodeHit c)).length →
          0 < (((taskMid st2 t.endpoint).store.docs).filter (compCodeHit c)).length := by
      intro c h
      apply hc c
      rcases hpf : processFetched env (taskMid st1 t.endpoint) t.endpoint data with ⟨s1f, err1⟩
      rw [hpf] at h
      cases err1 with
      | none => exact h
      | some msg => exact h
    have hmF : ∀ i, 0 < ((((processFetched env (taskMid st1 t.endpoint) t.endpoint data).1).store.docs).filter (matchIdHit i)).length →
          0 < (((taskMid st2 t.endpoint).store.docs).filter (matchIdHit i)).length := by
      intro i h
      apply hm i
      rcases hpf : processFetched env (taskMid st1 t.endpoint) t.endpoint data with ⟨s1f, err1⟩
      rw [hpf] at h
      cases err1 with
      | none => exact h
      | some msg => exact h
    obtain ⟨d2c, d2m, k, e2, e1⟩ := processFetched_lockstep env hw t.endpoint data
      (taskMid st1 t.endpoint) (taskMid st2 t.endpoint) hcF hmF
    rcases hp2 : processFetched env (taskMid st2 t.endpoint) t.endpoint data with ⟨s2f, err2⟩
    rcases hp1 : processFetched env (taskMid st1 t.endpoint) t.endpoint data with ⟨s1f, err1⟩
    rw [hp2] at d2c d2m e2
    rw [hp1] at e1
    cases err1 <;> cases err2 <;> exact ⟨d2c, d2m, k, e2, e1⟩

theorem runTasks_lockstep (env : Env) (hw : env.writeOk = fun _ => true) :
    ∀ (ts : List Task) (st1 st2 : RunState),
      st1.requestsMade = st2.requestsMade →
      (∀ c, 0 < (((runTasks env st1 ts).store.docs).filter (compCodeHit c)).length →
            0 < ((st2.store.docs).filter (compCodeHit c)).length) →
      (∀ i, 0 < (((runTasks env st1 ts).store.docs).filter (matchIdHit i)).length →
            0 < ((st2.store.docs).filter (matchIdHit i)).length) →
      compDocs (runTasks env st2 ts).store = compDocs st2.store ∧
      matchDocs (runTasks env st2 ts).store = matchDocs st2.store ∧
      (∃ n, (standingDocs (runTasks env st2 ts).store).length =
              (standingDocs st2.store).length + n ∧
            (standingDocs (runTasks env st1 ts).store).length =
              (standingDocs st1.store).length + n) := by
  intro ts
  induction ts with
  | nil =>
    intro st1 st2 hreq hc hm
    exact ⟨rfl, rfl, 0, rfl, rfl⟩
  | cons t ts ih =>
    intro st1 st2 hreq hc hm
    by_cases hb : st1.requestsMade ≥ env.maxRequests
    · have hb2 : st2.requestsMade ≥ env.maxRequests := by
        rw [← hreq]
        exact hb
      have hr1 : runTasks env st1 (t :: ts) = ctxLog st1 "INFO: Max requests reached" := by
        simp [runTasks, hb]
      have hr2 : runTasks env st2 (t :: ts) = ctxLog st2 "INFO: Max requests reached" := by
        simp [runTasks, hb2]
      rw [hr2]
      refine ⟨rfl, rfl, 0, rfl, ?_⟩
      rw [hr1]
      rfl
    · have hb2 : ¬ st2.requestsMade ≥ env.maxRequests := by
        rw [← hreq]
        exact hb
      have hr1 : runTasks env st1 (t :: ts) = runTasks env (processTask env st1 t) ts := by
        simp [runTasks, hb]
      have hr2 : runTasks env st2 (t :: ts) = runTasks env (processTask env st2 t) ts := by
        simp [runTasks, hb2]
      rw [hr1] at hc hm ⊢
      rw [hr2]
      have hcStep : ∀ c, 0 < (((processTask env st1 t).store.docs).filter (compCodeHit c)).length →
            0 < ((st2.store.docs).filter (compCodeHit c)).length := by
        intro c h
        apply hc c
        obtain ⟨l, hl, _⟩ := runTasks_docs env ts (processTask env st1 t)
        exact lt_of_lt_of_le h (filter_len_le_of_append ⟨l, hl⟩)
      have hmStep : ∀ i, 0 < (((processTask env st1 t).store.docs).filter (matchIdHit i)).length →
            0 < ((st2.store.docs).filter (matchIdHit i)).length := by
        intro i h
        apply hm i
        obtain ⟨l, hl, _⟩ := runTasks_docs env ts (processTask env st1 t)
        exact lt_of_lt_of_le h (filter_len_le_of_append ⟨l, hl⟩)
      obtain ⟨sc, sm, k, ek2, ek1⟩ := processTask_lockstep env hw t st1 st2 hcStep hmStep
      have hreq2 : (processTask env st1 t).requestsMade = (processTask env st2 t).requestsMade := by
        rw [(processTask_state env st1 t).2.1, (processTask_state env st2 t).2.1, hreq]
      have hcNext : ∀ c, 0 < (((runTasks env (processTask env st1 t) ts).store.docs).filter (compCodeHit c)).length →
            0 < (((processTask env st2 t).store.docs).filter (compCodeHit c)).length := by
        intro c h
        obtain ⟨l, hl, _⟩ := (processTask_state env st2 t).2.2.2.1
        exact lt_of_lt_of_le (hc c h) (filter_len_le_of_append ⟨l, hl⟩)
      have hmNext : ∀ i, 0 < (((runTasks env (processTask env st1 t) ts).store.docs).filter (matchIdHit i)).length →
            0 < (((processTask env st2 t).store.docs).filter (matchIdHit i)).length := by
        intro i h
        obtain ⟨l, hl, _⟩ := (processTask_state env st2 t).2.2.2.1
        exact lt_of_lt_of_le (hm i h) (filter_len_le_of_append ⟨l, hl⟩)
      obtain ⟨ic, im, n, en2, en1⟩ :=
        ih (processTask env st1 t) (processTask env st2 t) hreq2 hcNext hmNext
      refine ⟨?_, ?_, k + n, ?_, ?_⟩
      · rw [ic]
        exact sc
      · rw [im]
        exact sm
      · rw [en2, ek2]
        omega
      · rw [en1, ek1]
        omega

/-- C2: running the full nine-task queue twice in sequence against an
initially empty store, with the upstream returning the same responses both
times (the fetch function is the same deterministic function in both runs)
and a store that accepts every write, leaves the Competition documents and
the Match documents exactly as after the first run — both are
existence-checked by natural key before insert — while the Standing
documents, inserted unconditionally, are exactly doubled. -/
theorem claim2_two_runs_idempotence (env : Env) (h1 : env.initError = none)
    (hw : env.writeOk = fun _ => true) :
    compDocs ((handler env ((handler env emptyStore).2).store).2).store =
      compDocs ((handler env emptyStore).2).store ∧
    matchDocs ((handler env ((handler env emptyStore).2).store).2).store =
      matchDocs ((handler env emptyStore).2).store ∧
    (standingDocs ((handler env ((handler env emptyStore).2).store).2).store).length =
      2 * (standingDocs ((handler env emptyStore).2).store).length := by
  have hh : ∀ (s : Store), (handler env s).2 = runTasks env (initState s) tasks := by
    intro s
    unfold handler
    rw [h1]
  simp only [hh]
  obtain ⟨hcomp, hmatch, n, e2, e1⟩ := runTasks_lockstep env hw tasks
    (initState emptyStore)
    (initState (runTasks env (initState emptyStore) tasks).store)
    rfl (fun c h => h) (fun i h => h)
  refine ⟨hcomp, hmatch, ?_⟩
  have e2a : (standingDocs (runTasks env
      (initState (runTasks env (initState emptyStore) tasks).store) tasks).store).length =
      (standingDocs (runTasks env (initState emptyStore) tasks).store).length + n := e2
  have e1a : (standingDocs (runTasks env (initState emptyStore) tasks).store).length =
      0 + n := e1
  omega

/-- C2 witness: the two-run comparison instantiated in the environment
that serves the §8 Competition response for /competitions/PL. -/
theorem claim2_witness :
    compDocs ((handler compOnlyEnv ((handler compOnlyEnv emptyStore).2).store).2).store =
      compDocs ((handler compOnlyEnv emptyStore).2).store ∧
    matchDocs ((handler compOnlyEnv ((handler compOnlyEnv emptyStore).2).store).2).store =
      matchDocs ((handler compOnlyEnv emptyStore).2).store ∧
    (standingDocs ((handler compOnlyEnv ((handler compOnlyEnv emptyStore).2).store).2).store).length =
      2 * (standingDocs ((handler compOnlyEnv emptyStore).2).store).length :=
  claim2_two_runs_idempotence compOnlyEnv rfl rfl

end FootballSync
